import Mathlib

/-!
Verification of the KillBill game-utility library (`utils.js` and
`constants.js`).  Each JavaScript helper used by a claim is embedded as a
Lean definition: geometric code (which uses `Math.sqrt` and `Math.PI`) is
modelled over the real numbers, exact arithmetic code over the rationals
or naturals.  `Math.floor` is `Int.floor`, `Math.round x` is
`⌊x + 1/2⌋` (JavaScript rounds half toward +∞), and the JavaScript `%`
remainder truncates the quotient toward zero.
-/

open Real

/-- `{x, y, z}` record used by the vector, collision and game helpers. -/
structure Vec3 (α : Type) where
  x : α
  y : α
  z : α
deriving DecidableEq

/-- `GameUtils.vector.add`. -/
def Vec3.add {α : Type} [Add α] (vec1 vec2 : Vec3 α) : Vec3 α :=
  ⟨vec1.x + vec2.x, vec1.y + vec2.y, vec1.z + vec2.z⟩

/-- `GameUtils.vector.subtract`. -/
def Vec3.subtract {α : Type} [Sub α] (vec1 vec2 : Vec3 α) : Vec3 α :=
  ⟨vec1.x - vec2.x, vec1.y - vec2.y, vec1.z - vec2.z⟩

/-- `GameUtils.vector.multiply` (vector times scalar). -/
def Vec3.multiply {α : Type} [Mul α] (vec : Vec3 α) (scalar : α) : Vec3 α :=
  ⟨vec.x * scalar, vec.y * scalar, vec.z * scalar⟩

/-- `GameUtils.vector.dot`. -/
def Vec3.dot {α : Type} [Add α] [Mul α] (vec1 vec2 : Vec3 α) : α :=
  vec1.x * vec2.x + vec1.y * vec2.y + vec1.z * vec2.z

/-- `GameUtils.math.distance3D`. -/
noncomputable def distance3D (pos1 pos2 : Vec3 ℝ) : ℝ :=
  Real.sqrt ((pos2.x - pos1.x) * (pos2.x - pos1.x) +
    (pos2.y - pos1.y) * (pos2.y - pos1.y) +
    (pos2.z - pos1.z) * (pos2.z - pos1.z))

/-- `GameUtils.vector.length`. -/
noncomputable def Vec3.length (vec : Vec3 ℝ) : ℝ :=
  Real.sqrt (vec.x * vec.x + vec.y * vec.y + vec.z * vec.z)

/-- `GameUtils.vector.normalize`: returns the zero vector when the length
is exactly zero, otherwise divides each component by the length. -/
noncomputable def Vec3.normalize (vec : Vec3 ℝ) : Vec3 ℝ :=
  if vec.length = 0 then ⟨0, 0, 0⟩
  else ⟨vec.x / vec.length, vec.y / vec.length, vec.z / vec.length⟩

/-- `GameUtils.math.clamp(value, min, max)` (`Math.min(Math.max(value, lo), hi)`);
the source names the bound parameters `min`/`max`, renamed `lo`/`hi` here to
avoid shadowing the order functions. -/
def clamp {α : Type} [LinearOrder α] (value lo hi : α) : α :=
  min (max value lo) hi

/-- `GameUtils.math.lerp(start, end, factor)`. -/
def lerp (start finish factor : ℚ) : ℚ :=
  start + (finish - start) * factor

/-- First loop of `GameUtils.math.normalizeAngle`:
`while (angle < 0) angle += Math.PI * 2`. -/
noncomputable def addTwoPiLoop (angle : ℝ) : ℝ :=
  if h : angle < 0 then addTwoPiLoop (angle + Real.pi * 2) else angle
termination_by (⌈-angle / (Real.pi * 2)⌉).toNat
decreasing_by
  have hpi : (0:ℝ) < Real.pi * 2 := by have := Real.pi_pos; linarith
  have hq : -(angle + Real.pi * 2) / (Real.pi * 2) = -angle / (Real.pi * 2) - 1 := by
    field_simp
    ring
  have hpos : 0 < ⌈-angle / (Real.pi * 2)⌉ := by
    rw [Int.ceil_pos]
    exact div_pos (by linarith) hpi
  rw [hq, Int.ceil_sub_one]
  omega

/-- Second loop of `GameUtils.math.normalizeAngle`:
`while (angle >= Math.PI * 2) angle -= Math.PI * 2`. -/
noncomputable def subTwoPiLoop (angle : ℝ) : ℝ :=
  if h : Real.pi * 2 ≤ angle then subTwoPiLoop (angle - Real.pi * 2) else angle
termination_by (⌊angle / (Real.pi * 2)⌋).toNat
decreasing_by
  have hpi : (0:ℝ) < Real.pi * 2 := by have := Real.pi_pos; linarith
  have hq : (angle - Real.pi * 2) / (Real.pi * 2) = angle / (Real.pi * 2) - 1 := by
    field_simp
  have hone : 1 ≤ ⌊angle / (Real.pi * 2)⌋ := by
    rw [Int.le_floor]
    rw [le_div_iff₀ hpi]
    simpa using by linarith
  rw [hq]
  rw [show angle / (Real.pi * 2) - 1 = angle / (Real.pi * 2) - (1:ℤ) by push_cast; ring]
  rw [Int.floor_sub_int]
  omega

/-- `GameUtils.math.normalizeAngle`: both while-loops in sequence. -/
noncomputable def normalizeAngle (angle : ℝ) : ℝ :=
  subTwoPiLoop (addTwoPiLoop angle)

/-- Hit record returned by `GameUtils.collision.raySphere`. -/
structure RayHit where
  distance : ℝ
  point : Vec3 ℝ

/-- `GameUtils.collision.raySphere`: quadratic discriminant test, then only
the near root `(-b - sqrt(discriminant)) / (2a)` is examined. -/
noncomputable def raySphere (rayOrigin rayDirection sphereCenter : Vec3 ℝ)
    (radius : ℝ) : Option RayHit :=
  let oc := rayOrigin.subtract sphereCenter
  let a := rayDirection.dot rayDirection
  let b := 2.0 * oc.dot rayDirection
  let c := oc.dot oc - radius * radius
  let discriminant := b * b - 4 * a * c
  if discriminant < 0 then none
  else
    let t := (-b - Real.sqrt discriminant) / (2 * a)
    if t > 0 then
      some ⟨t, rayOrigin.add (rayDirection.multiply t)⟩
    else none

/-- JavaScript `Math.round`: round half toward positive infinity,
`Math.round x = ⌊x + 1/2⌋` for finite `x`. -/
def jsRound (q : ℚ) : ℤ :=
  ⌊q + 1/2⌋

/-- Truncation toward zero, the quotient rounding used by JavaScript `%`. -/
def jsTrunc (q : ℚ) : ℤ :=
  if 0 ≤ q then ⌊q⌋ else ⌈q⌉

/-- JavaScript `%` on numbers: `a % b = a - b * trunc(a / b)`. -/
def jsMod (a b : ℚ) : ℚ :=
  a - b * (jsTrunc (a / b) : ℚ)

/-- JavaScript `String.prototype.padStart(n, c)`. -/
def jsPadStart (s : String) (n : Nat) (c : Char) : String :=
  if n ≤ s.length then s
  else String.mk (List.replicate (n - s.length) c) ++ s

/-- `GameUtils.general.formatTime`:
`Math.floor(seconds / 60)` and `Math.floor(seconds % 60)`, the seconds part
zero-padded to two digits. -/
def formatTime (seconds : ℚ) : String :=
  let mins := ⌊seconds / 60⌋
  let secs := ⌊jsMod seconds 60⌋
  toString mins ++ ":" ++ jsPadStart (toString secs) 2 '0'

/-- `GAME_CONSTANTS.WEAPONS?.MAX_RANGE` from `constants.js`: the `WEAPONS`
table defines only `RIFLE`, so this lookup is absent and `|| 100` applies. -/
def WEAPONS_MAX_RANGE : Option ℚ :=
  none

/-- `GAME_CONSTANTS.WEAPONS?.FALLOFF_START` from `constants.js`: absent,
so `|| 50` applies. -/
def WEAPONS_FALLOFF_START : Option ℚ :=
  none

/-- `GAME_CONSTANTS.WORLD?.SIZE` from `constants.js`: present, value 200. -/
def WORLD_SIZE : Option ℚ :=
  some 200

/-- `GameUtils.game.calculateDamage(baseDamage, distance)`.  The
`constantsDefined` flag models `typeof GAME_CONSTANTS === 'undefined'`;
`Option.getD` models `||` with the hardcoded fallback (the values consulted
are absent or nonzero, so `||` and `getD` agree). -/
def calculateDamage (constantsDefined : Bool) (baseDamage distance : ℚ) : ℚ :=
  if constantsDefined = false then baseDamage
  else
    let maxRange := WEAPONS_MAX_RANGE.getD 100
    let falloffStart := WEAPONS_FALLOFF_START.getD 50
    if distance ≤ falloffStart then baseDamage
    else if maxRange ≤ distance then 0
    else
      let falloffFactor := 1 - ((distance - falloffStart) / (maxRange - falloffStart))
      (jsRound (baseDamage * falloffFactor) : ℚ)

/-- `GameUtils.game.isInBounds(position)`. -/
def isInBounds (constantsDefined : Bool) (position : Vec3 ℚ) : Bool :=
  if constantsDefined = false then true
  else
    let worldSize := WORLD_SIZE.getD 200
    let halfSize := worldSize / 2
    decide (-halfSize ≤ position.x) && decide (position.x ≤ halfSize) &&
      decide (-halfSize ≤ position.z) && decide (position.z ≤ halfSize)

/-- `GameUtils.game.clampToBounds(position)`: clamps x and z to
`±worldSize/2`, does not clamp y. -/
def clampToBounds (constantsDefined : Bool) (position : Vec3 ℚ) : Vec3 ℚ :=
  if constantsDefined = false then position
  else
    let worldSize := WORLD_SIZE.getD 200
    let halfSize := worldSize / 2
    ⟨clamp position.x (-halfSize) halfSize,
     position.y,
     clamp position.z (-halfSize) halfSize⟩

/-- `{r, g, b}` record produced by `GameUtils.color.hexToRgb`. -/
structure Rgb where
  r : Nat
  g : Nat
  b : Nat
deriving DecidableEq

/-- One character of the regex class `[a-f\d]` (case-insensitive). -/
def isHexDigit (c : Char) : Bool :=
  c.isDigit || ('a' ≤ c && c ≤ 'f') || ('A' ≤ c && c ≤ 'F')

/-- Value of one hexadecimal digit character. -/
def hexVal (c : Char) : Nat :=
  if c.isDigit then c.toNat - '0'.toNat
  else if 'a' ≤ c && c ≤ 'f' then c.toNat - 'a'.toNat + 10
  else c.toNat - 'A'.toNat + 10

/-- `parseInt` of a two-character hexadecimal group. -/
def hexPair (c1 c2 : Char) : Nat :=
  16 * hexVal c1 + hexVal c2

/-- `GameUtils.color.hexToRgb`: the regex
`/^#?([a-f\d]{2})([a-f\d]{2})([a-f\d]{2})$/i` as a character-list match —
an optional leading `#`, then exactly six hex digits, else `null`. -/
def hexToRgb (hex : String) : Option Rgb :=
  let cs := match hex.data with
    | '#' :: rest => rest
    | other => other
  match cs with
  | [c1, c2, c3, c4, c5, c6] =>
    if isHexDigit c1 && isHexDigit c2 && isHexDigit c3 && isHexDigit c4 &&
        isHexDigit c5 && isHexDigit c6 then
      some ⟨hexPair c1 c2, hexPair c3 c4, hexPair c5 c6⟩
    else none
  | _ => none

/-- JavaScript `Number.prototype.toString(16)` on a nonnegative integer:
most-significant-first base-16 digits, lowercase, no leading zeros. -/
def natToHex (n : Nat) : List Char :=
  if _h : n < 16 then [Nat.digitChar n]
  else natToHex (n / 16) ++ [Nat.digitChar (n % 16)]
termination_by n
decreasing_by
  exact Nat.div_lt_self (by omega) (by omega)

/-- `GameUtils.color.rgbToHex`:
`"#" + ((1 << 24) + (r << 16) + (g << 8) + b).toString(16).slice(1)`.
The shifts are modelled as exact multiplication by powers of two; the
32-bit wrap JavaScript applies to channels far outside [0, 255] is not
modelled (the spec leaves that range implementation-defined, and every
claim stays inside it). -/
def rgbToHex (r g b : ℤ) : String :=
  "#" ++ String.mk ((natToHex (2 ^ 24 + r * 2 ^ 16 + g * 2 ^ 8 + b).toNat).drop 1)

/-- `GameUtils.color.lerpColor`: parse both endpoints, return `color1`
unchanged when either parse fails, else lerp each channel, round, re-encode. -/
def lerpColor (color1 color2 : String) (factor : ℚ) : String :=
  match hexToRgb color1, hexToRgb color2 with
  | some c1, some c2 =>
    rgbToHex (jsRound (lerp c1.r c2.r factor))
      (jsRound (lerp c1.g c2.g factor))
      (jsRound (lerp c1.b c2.b factor))
  | _, _ => color1

theorem addTwoPiLoop_nonneg (angle : ℝ) : 0 ≤ addTwoPiLoop angle := by
  rw [addTwoPiLoop]
  split
  next h => exact addTwoPiLoop_nonneg (angle + Real.pi * 2)
  next h => linarith [not_lt.mp h]
termination_by (⌈-angle / (Real.pi * 2)⌉).toNat
decreasing_by
  have hpi : (0:ℝ) < Real.pi * 2 := by have := Real.pi_pos; linarith
  have hq : -(angle + Real.pi * 2) / (Real.pi * 2) = -angle / (Real.pi * 2) - 1 := by
    field_simp
    ring
  have hpos : 0 < ⌈-angle / (Real.pi * 2)⌉ := by
    rw [Int.ceil_pos]
    exact div_pos (by linarith) hpi
  rw [hq, Int.ceil_sub_one]
  omega

theorem subTwoPiLoop_lt (angle : ℝ) : subTwoPiLoop angle < Real.pi * 2 := by
  rw [subTwoPiLoop]
  split
  next h => exact subTwoPiLoop_lt (angle - Real.pi * 2)
  next h => exact lt_of_not_le h
termination_by (⌊angle / (Real.pi * 2)⌋).toNat
decreasing_by
  have hpi : (0:ℝ) < Real.pi * 2 := by have := Real.pi_pos; linarith
  have hq : (angle - Real.pi * 2) / (Real.pi * 2) = angle / (Real.pi * 2) - 1 := by
    field_simp
  have hone : 1 ≤ ⌊angle / (Real.pi * 2)⌋ := by
    rw [Int.le_floor]
    rw [le_div_iff₀ hpi]
    simpa using by linarith
  rw [hq]
  rw [show angle / (Real.pi * 2) - 1 = angle / (Real.pi * 2) - (1:ℤ) by push_cast; ring]
  rw [Int.floor_sub_int]
  omega

theorem subTwoPiLoop_nonneg (angle : ℝ) (h0 : 0 ≤ angle) : 0 ≤ subTwoPiLoop angle := by
  rw [subTwoPiLoop]
  split
  next h =>
    refine subTwoPiLoop_nonneg (angle - Real.pi * 2) ?_
    linarith
  next h => exact h0
termination_by (⌊angle / (Real.pi * 2)⌋).toNat
decreasing_by
  have hpi : (0:ℝ) < Real.pi * 2 := by have := Real.pi_pos; linarith
  have hq : (angle - Real.pi * 2) / (Real.pi * 2) = angle / (Real.pi * 2) - 1 := by
    field_simp
  have hone : 1 ≤ ⌊angle / (Real.pi * 2)⌋ := by
    rw [Int.le_floor]
    rw [le_div_iff₀ hpi]
    simpa using by linarith
  rw [hq]
  rw [show angle / (Real.pi * 2) - 1 = angle / (Real.pi * 2) - (1:ℤ) by push_cast; ring]
  rw [Int.floor_sub_int]
  omega

/-- C4: `normalizeAngle` terminates on every real input (it is a total
function, defined by well-founded recursion on the number of remaining
2π steps) and its result lies in the half-open interval `[0, 2π)`. -/
theorem C4_normalizeAngle_total_in_range (angle : ℝ) :
    0 ≤ normalizeAngle angle ∧ normalizeAngle angle < Real.pi * 2 :=
  ⟨subTwoPiLoop_nonneg _ (addTwoPiLoop_nonneg angle), subTwoPiLoop_lt _⟩

/-- C5: `normalize` maps the zero vector to the zero vector (no division
by zero, no error), and every vector of nonzero length to a vector whose
length is 1, within tolerance 1e-9. -/
theorem C5_normalize_no_div_zero_unit_length :
    Vec3.normalize ⟨0, 0, 0⟩ = (⟨0, 0, 0⟩ : Vec3 ℝ) ∧
    ∀ v : Vec3 ℝ, v.length ≠ 0 → |v.normalize.length - 1| ≤ 1e-9 := by
  constructor
  · rw [Vec3.normalize]
    rw [if_pos]
    rw [Vec3.length]
    norm_num [Real.sqrt_zero]
  · intro v h
    have hS0 : 0 ≤ v.x * v.x + v.y * v.y + v.z * v.z :=
      add_nonneg (add_nonneg (mul_self_nonneg _) (mul_self_nonneg _)) (mul_self_nonneg _)
    have hll : v.length * v.length = v.x * v.x + v.y * v.y + v.z * v.z := by
      rw [Vec3.length]
      exact Real.mul_self_sqrt hS0
    have hl0 : v.length ≠ 0 := h
    rw [Vec3.normalize, if_neg h, Vec3.length]
    have hsum : v.x / v.length * (v.x / v.length) + v.y / v.length * (v.y / v.length) +
        v.z / v.length * (v.z / v.length) = 1 := by
      field_simp
      linarith [hll]
    rw [hsum, Real.sqrt_one]
    norm_num

/-- C1: when the ray origin is strictly inside the sphere and the
direction is nonzero, `raySphere` returns the no-intersection signal
`none`, because only the near root is examined and it is negative. -/
theorem C1_raySphere_origin_inside_no_hit (rayOrigin rayDirection sphereCenter : Vec3 ℝ)
    (radius : ℝ) (hin : distance3D rayOrigin sphereCenter < radius)
    (hdir : rayDirection ≠ ⟨0, 0, 0⟩) :
    raySphere rayOrigin rayDirection sphereCenter radius = none := by
  obtain ⟨ox, oy, oz⟩ := rayOrigin
  obtain ⟨dx, dy, dz⟩ := rayDirection
  obtain ⟨cx, cy, cz⟩ := sphereCenter
  have hC : (ox - cx) * (ox - cx) + (oy - cy) * (oy - cy) + (oz - cz) * (oz - cz) -
      radius * radius < 0 := by
    have hsq := Real.lt_sq_of_sqrt_lt (by simpa [distance3D] using hin)
    nlinarith [hsq]
  have hA : 0 < dx * dx + dy * dy + dz * dz := by
    rcases eq_or_lt_of_le
        (add_nonneg (add_nonneg (mul_self_nonneg dx) (mul_self_nonneg dy))
          (mul_self_nonneg dz)) with h0 | h0
    · exfalso
      have hx : dx = 0 := by nlinarith [mul_self_nonneg dy, mul_self_nonneg dz]
      have hy : dy = 0 := by nlinarith [mul_self_nonneg dx, mul_self_nonneg dz]
      have hz : dz = 0 := by nlinarith [mul_self_nonneg dx, mul_self_nonneg dy]
      exact hdir (by simp [hx, hy, hz])
    · exact h0
  simp only [raySphere, Vec3.subtract, Vec3.dot, Vec3.add, Vec3.multiply]
  split_ifs with h1 h2
  · rfl
  · exfalso
    rw [not_lt] at h1
    set B : ℝ := 2.0 * ((ox - cx) * dx + (oy - cy) * dy + (oz - cz) * dz) with hB
    set A : ℝ := dx * dx + dy * dy + dz * dz with hAdef
    set C : ℝ := (ox - cx) * (ox - cx) + (oy - cy) * (oy - cy) + (oz - cz) * (oz - cz) -
      radius * radius with hCdef
    have hs : Real.sqrt (B * B) < Real.sqrt (B * B - 4 * A * C) := by
      refine Real.sqrt_lt_sqrt (mul_self_nonneg B) ?_
      nlinarith [mul_pos hA (neg_pos.mpr hC)]
    rw [Real.sqrt_mul_self_eq_abs] at hs
    have hnum : -B - Real.sqrt (B * B - 4 * A * C) < 0 := by
      have := neg_le_abs B
      linarith
    have hneg : (-B - Real.sqrt (B * B - 4 * A * C)) / (2 * A) < 0 :=
      div_neg_of_neg_of_pos hnum (by linarith)
    exact absurd h2 (not_lt.mpr hneg.le)
  · rfl

/-- Closed-form instance of `C1_raySphere_origin_inside_no_hit`. -/
theorem C1_witness :
    raySphere ⟨0, 0, 0⟩ ⟨0, 0, 1⟩ ⟨0, 0, 0⟩ 1 = none := by
  apply C1_raySphere_origin_inside_no_hit
  · show distance3D _ _ < 1
    norm_num [distance3D, Real.sqrt_zero]
  · simp [Vec3.mk.injEq]

/-- Closed-form instance of `C5_normalize_no_div_zero_unit_length`. -/
theorem C5_witness :
    Vec3.length (⟨3, 4, 0⟩ : Vec3 ℝ) ≠ 0 ∧
    |(Vec3.normalize (⟨3, 4, 0⟩ : Vec3 ℝ)).length - 1| ≤ 1e-9 := by
  have h : Vec3.length (⟨3, 4, 0⟩ : Vec3 ℝ) ≠ 0 := by
    rw [Vec3.length]
    rw [Real.sqrt_ne_zero']
    norm_num
  exact ⟨h, C5_normalize_no_div_zero_unit_length.2 _ h⟩

/-- C2: with the constants table present, `calculateDamage` returns the
base damage at or below distance 50, zero at or above distance 100, and
the rounded linear falloff in between; with the table absent it returns
the base unchanged. -/
theorem C2_calculateDamage_piecewise :
    (∀ base dist : ℚ, dist ≤ 50 → calculateDamage true base dist = base) ∧
    (∀ base dist : ℚ, 100 ≤ dist → calculateDamage true base dist = 0) ∧
    (∀ base dist : ℚ, 50 < dist → dist < 100 →
      calculateDamage true base dist = (jsRound (base * (1 - (dist - 50) / 50)) : ℚ)) ∧
    calculateDamage true 100 10 = 100 ∧
    calculateDamage true 100 100 = 0 ∧
    calculateDamage true 100 75 = 50 ∧
    (∀ base dist : ℚ, calculateDamage false base dist = base) := by
  refine ⟨?_, ?_, ?_, ?_, ?_, ?_, ?_⟩
  · intro base dist hd
    simp [calculateDamage, WEAPONS_MAX_RANGE, WEAPONS_FALLOFF_START, hd]
  · intro base dist hd
    have h1 : ¬ (dist ≤ 50) := by linarith
    simp [calculateDamage, WEAPONS_MAX_RANGE, WEAPONS_FALLOFF_START, h1, hd]
  · intro base dist hlo hhi
    have h1 : ¬ (dist ≤ 50) := by linarith
    have h2 : ¬ ((100:ℚ) ≤ dist) := by linarith
    simp [calculateDamage, WEAPONS_MAX_RANGE, WEAPONS_FALLOFF_START, h1, h2]
    norm_num
  · norm_num [calculateDamage, WEAPONS_MAX_RANGE, WEAPONS_FALLOFF_START]
  · norm_num [calculateDamage, WEAPONS_MAX_RANGE, WEAPONS_FALLOFF_START]
  · norm_num [calculateDamage, WEAPONS_MAX_RANGE, WEAPONS_FALLOFF_START, jsRound]
  · intro base dist
    simp [calculateDamage]

/-- Closed-form instance of `C2_calculateDamage_piecewise`. -/
theorem C2_witness :
    calculateDamage true 7 30 = 7 ∧ calculateDamage true 7 150 = 0 ∧
    calculateDamage true 7 75 = (jsRound (7 * (1 - ((75:ℚ) - 50) / 50)) : ℚ) :=
  ⟨C2_calculateDamage_piecewise.1 7 30 (by norm_num),
   C2_calculateDamage_piecewise.2.1 7 150 (by norm_num),
   C2_calculateDamage_piecewise.2.2.1 7 75 (by norm_num) (by norm_num)⟩

/-- C10 fails as stated: for the fractional base damage 0.6 at distance 55
the rounded result is 1, which exceeds the base. -/
theorem C10_counterexample :
    ¬ (calculateDamage true (3/5) 55 ≤ 3/5) := by
  have hv : calculateDamage true (3/5) 55 = 1 := by
    norm_num [calculateDamage, WEAPONS_MAX_RANGE, WEAPONS_FALLOFF_START, jsRound]
  rw [hv]
  norm_num

/-- C10 (amended): for every nonnegative integer base damage and every
rational distance, `calculateDamage` stays within `[0, base]`; rounding
can push the result above a fractional base, but never above an integer
base. -/
theorem C10_damage_bounds (base : ℕ) (dist : ℚ) :
    0 ≤ calculateDamage true (base : ℚ) dist ∧ calculateDamage true (base : ℚ) dist ≤ base := by
  rcases le_or_lt dist 50 with h1 | h1
  · constructor
    · simp [calculateDamage, WEAPONS_MAX_RANGE, WEAPONS_FALLOFF_START, h1]
    · simp [calculateDamage, WEAPONS_MAX_RANGE, WEAPONS_FALLOFF_START, h1]
  · rcases le_or_lt 100 dist with h2 | h2
    · have h1' : ¬ (dist ≤ 50) := by linarith
      constructor
      · simp [calculateDamage, WEAPONS_MAX_RANGE, WEAPONS_FALLOFF_START, h1', h2]
      · simp [calculateDamage, WEAPONS_MAX_RANGE, WEAPONS_FALLOFF_START, h1', h2]
    · have h1' : ¬ (dist ≤ 50) := by linarith
      have h2' : ¬ ((100:ℚ) ≤ dist) := by linarith
      have hfpos : 0 < 1 - (dist - 50) / 50 := by
        have : (dist - 50) / 50 < 1 := by
          rw [div_lt_one (by norm_num : (0:ℚ) < 50)]
          linarith
        linarith
      have hflt : 1 - (dist - 50) / 50 < 1 := by
        have : 0 < (dist - 50) / 50 := div_pos (by linarith) (by norm_num)
        linarith
      have hx0 : 0 ≤ (base : ℚ) * (1 - (dist - 50) / 50) :=
        mul_nonneg (Nat.cast_nonneg base) hfpos.le
      have hx1 : (base : ℚ) * (1 - (dist - 50) / 50) ≤ base :=
        mul_le_of_le_one_right (Nat.cast_nonneg base) hflt.le
      have hlow : (0:ℤ) ≤ jsRound ((base : ℚ) * (1 - (dist - 50) / 50)) := by
        rw [jsRound]
        rw [Int.le_floor]
        push_cast
        linarith
      have hup : jsRound ((base : ℚ) * (1 - (dist - 50) / 50)) ≤ (base : ℤ) := by
        have hlt : jsRound ((base : ℚ) * (1 - (dist - 50) / 50)) < (base : ℤ) + 1 := by
          rw [jsRound]
          rw [Int.floor_lt]
          push_cast
          linarith
        omega
      constructor
      · simp only [calculateDamage, WEAPONS_MAX_RANGE, WEAPONS_FALLOFF_START,
          Option.getD_none, if_neg h1', if_neg h2']
        norm_num
        exact_mod_cast hlow
      · simp only [calculateDamage, WEAPONS_MAX_RANGE, WEAPONS_FALLOFF_START,
          Option.getD_none, if_neg h1', if_neg h2']
        norm_num
        exact_mod_cast hup

theorem le_clamp {α : Type} [LinearOrder α] (value lo hi : α) (h : lo ≤ hi) :
    lo ≤ clamp value lo hi :=
  le_min (le_max_right _ _) h

theorem clamp_le {α : Type} [LinearOrder α] (value lo hi : α) :
    clamp value lo hi ≤ hi :=
  min_le_right _ _

/-- C8: with the constants table present, `clampToBounds` never changes
the y coordinate and clamps x and z to `[-worldSize/2, worldSize/2]`
(worldSize = 200, so ±100); with the table absent it is the identity. -/
theorem C8_clampToBounds_clamps_xz_keeps_y :
    (∀ p : Vec3 ℚ,
      (clampToBounds true p).y = p.y ∧
      (clampToBounds true p).x = clamp p.x (-100) 100 ∧
      (clampToBounds true p).z = clamp p.z (-100) 100 ∧
      -100 ≤ (clampToBounds true p).x ∧ (clampToBounds true p).x ≤ 100 ∧
      -100 ≤ (clampToBounds true p).z ∧ (clampToBounds true p).z ≤ 100) ∧
    (∀ p : Vec3 ℚ, clampToBounds false p = p) := by
  constructor
  · intro p
    have hx := le_clamp p.x (-100 : ℚ) 100 (by norm_num)
    have hx' := clamp_le p.x (-100 : ℚ) 100
    have hz := le_clamp p.z (-100 : ℚ) 100 (by norm_num)
    have hz' := clamp_le p.z (-100 : ℚ) 100
    refine ⟨?_, ?_, ?_, ?_, ?_, ?_, ?_⟩ <;>
      simp [clampToBounds, WORLD_SIZE] <;> norm_num [hx, hx', hz, hz']
  · intro p
    simp [clampToBounds]

/-- C9: with the constants table present, a clamped position always
passes the `isInBounds` test — both helpers use the same half-size
`worldSize/2` on x and z. -/
theorem C9_isInBounds_of_clampToBounds (p : Vec3 ℚ) :
    isInBounds true (clampToBounds true p) = true := by
  have hx := le_clamp p.x (-100 : ℚ) 100 (by norm_num)
  have hx' := clamp_le p.x (-100 : ℚ) 100
  have hz := le_clamp p.z (-100 : ℚ) 100 (by norm_num)
  have hz' := clamp_le p.z (-100 : ℚ) 100
  simp [isInBounds, clampToBounds, WORLD_SIZE]
  norm_num [hx, hx', hz, hz']

theorem floor_div_sixty (s : ℚ) : ⌊s / 60⌋ = ⌊s⌋ / 60 := by
  rw [Int.floor_eq_iff]
  constructor
  · rw [le_div_iff₀ (by norm_num : (0:ℚ) < 60)]
    have h2 : (⌊s⌋ / 60 * 60 : ℤ) ≤ ⌊s⌋ := by omega
    calc ((⌊s⌋ / 60 : ℤ) : ℚ) * 60 = ((⌊s⌋ / 60 * 60 : ℤ) : ℚ) := by push_cast; ring
      _ ≤ (⌊s⌋ : ℚ) := by exact_mod_cast h2
      _ ≤ s := Int.floor_le s
  · rw [div_lt_iff₀ (by norm_num : (0:ℚ) < 60)]
    have h2 : ⌊s⌋ + 1 ≤ (⌊s⌋ / 60 + 1) * 60 := by omega
    have h3 : (⌊s⌋ : ℚ) + 1 ≤ (((⌊s⌋ / 60 + 1) * 60 : ℤ) : ℚ) := by exact_mod_cast h2
    have h4 := Int.lt_floor_add_one s
    push_cast at h3
    linarith

theorem floor_jsMod_sixty (s : ℚ) (hs : 0 ≤ s) : ⌊jsMod s 60⌋ = ⌊s⌋ % 60 := by
  have htr : jsTrunc (s / 60) = ⌊s⌋ / 60 := by
    rw [jsTrunc, if_pos (by positivity : (0:ℚ) ≤ s / 60)]
    exact floor_div_sixty s
  rw [jsMod, htr]
  rw [show (60:ℚ) * ((⌊s⌋ / 60 : ℤ) : ℚ) = ((60 * (⌊s⌋ / 60) : ℤ) : ℚ) by push_cast; ring]
  rw [Int.floor_sub_int]
  omega

/-- C6: `formatTime` prints unpadded minutes, a colon, and two-digit
zero-padded seconds, both components truncated toward zero: for a
nonnegative input only the integer part of the seconds count matters,
and the components are its integer quotient and remainder by 60. -/
theorem C6_formatTime_truncated_components :
    (∀ s : ℚ, 0 ≤ s →
      formatTime s = toString (⌊s⌋ / 60) ++ ":" ++ jsPadStart (toString (⌊s⌋ % 60)) 2 '0') ∧
    formatTime 125 = "2:05" ∧ formatTime 59 = "0:59" := by
  have hgen : ∀ s : ℚ, 0 ≤ s →
      formatTime s = toString (⌊s⌋ / 60) ++ ":" ++ jsPadStart (toString (⌊s⌋ % 60)) 2 '0' := by
    intro s hs
    rw [formatTime]
    rw [floor_div_sixty s, floor_jsMod_sixty s hs]
  refine ⟨hgen, ?_, ?_⟩
  · rw [hgen 125 (by norm_num)]
    norm_num
    decide
  · rw [hgen 59 (by norm_num)]
    norm_num
    decide

/-- Closed-form instance of `C6_formatTime_truncated_components`. -/
theorem C6_witness :
    (0:ℚ) ≤ 125 / 2 ∧
    formatTime (125 / 2) =
      toString (⌊(125 / 2 : ℚ)⌋ / 60) ++ ":" ++ jsPadStart (toString (⌊(125 / 2 : ℚ)⌋ % 60)) 2 '0' :=
  ⟨by norm_num, C6_formatTime_truncated_components.1 (125 / 2) (by norm_num)⟩

/-- C7: whenever `hexToRgb` fails on either endpoint, `lerpColor` returns
its first argument unchanged. -/
theorem C7_lerpColor_parse_failure_identity (color1 color2 : String) (factor : ℚ)
    (h : hexToRgb color1 = none ∨ hexToRgb color2 = none) :
    lerpColor color1 color2 factor = color1 := by
  rcases h with h | h
  · rw [lerpColor, h]
  · rw [lerpColor, h]
    cases hexToRgb color1 <;> rfl

/-- Closed-form instance of `C7_lerpColor_parse_failure_identity`. -/
theorem C7_witness :
    lerpColor "red" "#00ff00" (1 / 2) = "red" :=
  C7_lerpColor_parse_failure_identity "red" "#00ff00" (1 / 2) (Or.inl (by decide))

theorem natToHex_step (a d : Nat) (ha : 0 < a) (hd : d < 16) :
    natToHex (a * 16 + d) = natToHex a ++ [Nat.digitChar d] := by
  have h1 : (a * 16 + d) / 16 = a := by omega
  have h2 : (a * 16 + d) % 16 = d := by omega
  rw [natToHex, dif_neg (by omega : ¬ (a * 16 + d < 16)), h1, h2]

theorem natToHex_one : natToHex 1 = ['1'] := by
  rw [natToHex]
  decide

theorem hexDigit_char (v : Nat) (hv : v < 16) :
    isHexDigit (Nat.digitChar v) = true ∧ hexVal (Nat.digitChar v) = v := by
  interval_cases v <;> decide

theorem natToHex_hex7 (r g b : Nat) (hr : r < 256) (hg : g < 256) (hb : b < 256) :
    natToHex (2 ^ 24 + r * 2 ^ 16 + g * 2 ^ 8 + b) =
      ['1', Nat.digitChar (r / 16), Nat.digitChar (r % 16), Nat.digitChar (g / 16),
       Nat.digitChar (g % 16), Nat.digitChar (b / 16), Nat.digitChar (b % 16)] := by
  have e : 2 ^ 24 + r * 2 ^ 16 + g * 2 ^ 8 + b =
      ((((((1 * 16 + r / 16) * 16 + r % 16) * 16 + g / 16) * 16 + g % 16) * 16 + b / 16) * 16 +
        b % 16) := by
    omega
  rw [e]
  rw [natToHex_step _ _ (by omega) (by omega)]
  rw [natToHex_step _ _ (by omega) (by omega)]
  rw [natToHex_step _ _ (by omega) (by omega)]
  rw [natToHex_step _ _ (by omega) (by omega)]
  rw [natToHex_step _ _ (by omega) (by omega)]
  rw [natToHex_step _ _ (by omega) (by omega)]
  rw [natToHex_one]
  simp

theorem rgbToHex_data (r g b : Nat) (hr : r < 256) (hg : g < 256) (hb : b < 256) :
    (rgbToHex (r : ℤ) (g : ℤ) (b : ℤ)).data =
      ['#', Nat.digitChar (r / 16), Nat.digitChar (r % 16), Nat.digitChar (g / 16),
       Nat.digitChar (g % 16), Nat.digitChar (b / 16), Nat.digitChar (b % 16)] := by
  rw [rgbToHex]
  have htn : ((2:ℤ) ^ 24 + (r:ℤ) * 2 ^ 16 + (g:ℤ) * 2 ^ 8 + (b:ℤ)).toNat =
      2 ^ 24 + r * 2 ^ 16 + g * 2 ^ 8 + b := by
    omega
  rw [htn, natToHex_hex7 r g b hr hg hb]
  rfl

/-- C3: the two color conversions are mutual inverses on in-range integer
channels — `hexToRgb (rgbToHex r g b)` succeeds and returns `{r, g, b}`
whenever each channel lies in `[0, 255]`. -/
theorem C3_color_round_trip (r g b : Nat) (hr : r ≤ 255) (hg : g ≤ 255) (hb : b ≤ 255) :
    hexToRgb (rgbToHex (r : ℤ) (g : ℤ) (b : ℤ)) = some ⟨r, g, b⟩ := by
  rw [hexToRgb]
  rw [rgbToHex_data r g b (by omega) (by omega) (by omega)]
  have d1 := hexDigit_char (r / 16) (by omega)
  have d2 := hexDigit_char (r % 16) (by omega)
  have d3 := hexDigit_char (g / 16) (by omega)
  have d4 := hexDigit_char (g % 16) (by omega)
  have d5 := hexDigit_char (b / 16) (by omega)
  have d6 := hexDigit_char (b % 16) (by omega)
  simp only [d1.1, d2.1, d3.1, d4.1, d5.1, d6.1, Bool.and_self, if_pos]
  simp only [hexPair, d1.2, d2.2, d3.2, d4.2, d5.2, d6.2, Option.some.injEq, Rgb.mk.injEq]
  refine ⟨by omega, by omega, by omega⟩

/-- Closed-form instance of `C3_color_round_trip`. -/
theorem C3_witness :
    hexToRgb (rgbToHex 255 0 128) = some ⟨255, 0, 128⟩ := by
  have h := C3_color_round_trip 255 0 128 (by norm_num) (by norm_num) (by norm_num)
  simpa using h
